import Mathlib

/-!
Shallow embedding of the DBLite library (src/DBLite/Base.py).

The Python code is modelled as follows:
* entry identifiers (`int | str`, plus `None` which `DataBase.add` passes
  when the caller omits the identifier) become the inductive `Ident`;
* stored values become `PyObj`: either an opaque non-database object or a
  `DataBase` instance (the only distinction `DataField.add` inspects);
* the Python `dict` backing `DataField.__filed` becomes an association list
  with Python's semantics: assignment overwrites in place (insertion
  position preserved) or appends, `del` removes the entry;
* mutable Python lists of fields live in an explicit heap
  (`DBState.heap`), with stores holding references into it — this captures
  the aliasing behaviour of `create`'s mutable default argument
  `data_fileds_ = []` (a single module-level list object, heap index 0)
  and the fresh allocations made by `deepcopy` and `pickle.load`;
* `randint(0, 999999999999999)` draws are read from an explicit stream
  `DBState.rng`;
* `pickle.dump`/`pickle.load` round-trip the store by value, so the
  filesystem maps a path to a `DBFile` snapshot (name, pin, field list).
-/

namespace DBLite

/-- Entry identifiers: Python `int | str`, plus `None` which `DataBase.add`
passes when the caller omits the identifier.  Distinct constructors are never
equal, matching Python where `1 == "1"` and `None == 1` are both `False`. -/
inductive Ident where
  | pynone : Ident
  | int : Int → Ident
  | str : String → Ident
deriving DecidableEq, Repr

/-- A Python value stored in a field entry: either an opaque non-database
object, or a `DataBase` instance (its `__name`, `__pin`, and a reference to
its fields list).  `DataField.add` only inspects whether the value is a
`DataBase` (the `isinstance(obj_, DataBase)` guard). -/
inductive PyObj where
  | obj : String → PyObj
  | dataBase : String → Option Int → Nat → PyObj
deriving DecidableEq, Repr

/-- `isinstance(obj_, DataBase)`. -/
def PyObj.isDataBase : PyObj → Bool
  | .dataBase _ _ _ => true
  | .obj _ => false

/-- The error taxonomy of `BaseErrors.py`. -/
inductive DBError where
  | objectIsDataBase : PyObj → DBError
  | identifierNotFound : Ident → DBError
  | fieldNotFound : String → String → DBError
  | dataBaseNotFound : String → DBError
  | pinError : Option Int → DBError
deriving DecidableEq, Repr

/-- Python `dict` lookup `d[identifier]`, as an `Option`. -/
def dictGet : List (Ident × PyObj) → Ident → Option PyObj
  | [], _ => none
  | (k0, v0) :: rest, k => if k0 = k then some v0 else dictGet rest k

/-- Python `dict` assignment `d[identifier] = obj`: overwrites in place when
the key is already present (its insertion position is preserved), appends a
new entry otherwise. -/
def dictSet : List (Ident × PyObj) → Ident → PyObj → List (Ident × PyObj)
  | [], k, v => [(k, v)]
  | (k0, v0) :: rest, k, v =>
      if k0 = k then (k0, v) :: rest else (k0, v0) :: dictSet rest k v

/-- Python `del d[identifier]`: removes the entry, `none` when absent. -/
def dictDel : List (Ident × PyObj) → Ident → Option (List (Ident × PyObj))
  | [], _ => none
  | (k0, v0) :: rest, k =>
      if k0 = k then some rest
      else (dictDel rest k).map (fun d => (k0, v0) :: d)

/-- `DataField`: the name `__filed_name`, the entry map `__filed`, and the
numeric identity `__id` (drawn from `randint(0, 999999999999999)` at
construction when not caller-supplied). -/
structure DataField where
  filed : List (Ident × PyObj)
  filed_name : String
  id : Int
deriving DecidableEq, Repr

/-- `DataField.__init__(filed_name_)` with `id_ = None`: empty map, the given
name, and the supplied `randint` draw as identity. -/
def DataField.mkNew (n : String) (r : Int) : DataField :=
  ⟨[], n, r⟩

/-- `DataField.check_field_name`. -/
def DataField.check_field_name (f : DataField) (n : String) : Bool :=
  f.filed_name = n

/-- `DataField.get`: `self.__filed[identifier_]`, raising
`ErrorIdentifierNotFound` when the key is absent. -/
def DataField.get (f : DataField) (ident : Ident) : Except DBError PyObj :=
  match dictGet f.filed ident with
  | some v => .ok v
  | none => .error (.identifierNotFound ident)

/-- `DataField.add`: raises `ErrorObjectIsDataBase` when the value is a
`DataBase` instance, otherwise `self.__filed[identifier_] = obj_`. -/
def DataField.add (f : DataField) (ident : Ident) (obj : PyObj) :
    Except DBError DataField :=
  if obj.isDataBase then .error (.objectIsDataBase obj)
  else .ok { f with filed := dictSet f.filed ident obj }

/-- `DataField.remove`: `del self.__filed[identifier_]`, raising
`ErrorIdentifierNotFound` when the key is absent. -/
def DataField.remove (f : DataField) (ident : Ident) :
    Except DBError DataField :=
  match dictDel f.filed ident with
  | some d => .ok { f with filed := d }
  | none => .error (.identifierNotFound ident)

/-- `DataField.lenght` (sic), also `__len__`. -/
def DataField.lenght (f : DataField) : Nat :=
  f.filed.length

/-- `DataField.get_idetifiers` (sic). -/
def DataField.get_idetifiers (f : DataField) : List Ident :=
  f.filed.map Prod.fst

/-- `DataField.get_objects`. -/
def DataField.get_objects (f : DataField) : List PyObj :=
  f.filed.map Prod.snd

/-- `DataField.get_name`. -/
def DataField.get_name (f : DataField) : String :=
  f.filed_name

/-- `DataField.get_id`. -/
def DataField.get_id (f : DataField) : Int :=
  f.id

/-- `DataField.new_id`: assigns the supplied fresh `randint` draw; no
inequality check against the old identity is performed. -/
def DataField.new_id (f : DataField) (r : Int) : DataField :=
  { f with id := r }

/-- A pickled store snapshot: `pickle.dump(db, file)` serialises the
`DataBase` object graph by value — its `__name`, `__pin`, and the full
contents of its fields list. -/
structure DBFile where
  name : String
  pin : Option Int
  fields : List DataField
deriving DecidableEq, Repr

/-- An in-memory `DataBase` handle: `__name`, `__pin`, and a reference
(heap index) to its mutable `__fields` list. -/
structure DataBase where
  name : String
  pin : Option Int
  fieldsRef : Nat
deriving DecidableEq, Repr

/-- The mutable world the Python code runs in: the heap of allocated field
lists (a store's `__fields` is a reference into it), the filesystem mapping
a path to its pickled snapshot, and the stream of `randint` draws. -/
structure DBState where
  heap : List (List DataField)
  files : List (String × DBFile)
  rng : List Int
deriving DecidableEq, Repr

/-- Dereference a fields-list reference. -/
def heapGet (h : List (List DataField)) (r : Nat) : List DataField :=
  h.getD r []

/-- Overwrite the list object behind a reference. -/
def heapSet (h : List (List DataField)) (r : Nat) (fs : List DataField) :
    List (List DataField) :=
  h.set r fs

/-- Allocate a fresh list object (as `[...]` literals, `deepcopy` and
`pickle.load` do) and return its reference. -/
def allocList (st : DBState) (fs : List DataField) : DBState × Nat :=
  ({ st with heap := st.heap ++ [fs] }, st.heap.length)

/-- `open(name_, 'rb')` followed by `pickle.load`: the snapshot stored at
the path, `none` when the file does not exist. -/
def fsRead : List (String × DBFile) → String → Option DBFile
  | [], _ => none
  | (n0, f0) :: rest, n => if n0 = n then some f0 else fsRead rest n

/-- `open(name_, 'wb')` followed by `pickle.dump`: truncate or create the
file at the path and write the snapshot. -/
def fsWrite : List (String × DBFile) → String → DBFile →
    List (String × DBFile)
  | [], n, f => [(n, f)]
  | (n0, f0) :: rest, n, f =>
      if n0 = n then (n0, f) :: rest else (n0, f0) :: fsWrite rest n f

/-- The single module-level list object created when `create`'s default
argument `data_fileds_: list[DataField] = []` is evaluated at function
definition time; every call of `create` that omits the argument receives
this same list.  It lives at heap index 0. -/
def defaultFieldsRef : Nat := 0

/-- The world right after `import DBLite`: the default-argument list (empty)
is the only allocation; the filesystem and the `randint` stream are given. -/
def initState (files : List (String × DBFile)) (rng : List Int) : DBState :=
  ⟨[[]], files, rng⟩

/-- `DataBase.create(name_, pin_, data_fileds_)`: opens the path for
writing, builds the store (name, pin, and the fields-list reference —
the caller's list when supplied, otherwise the shared default-argument
list), pickles a snapshot into the file, and returns the store. -/
def DataBase.create (st : DBState) (name : String) (pin : Option Int)
    (fieldsArg : Option Nat) : DBState × DataBase :=
  let ref := fieldsArg.getD defaultFieldsRef
  let db : DataBase := ⟨name, pin, ref⟩
  let snap : DBFile := ⟨name, pin, heapGet st.heap ref⟩
  ({ st with files := fsWrite st.files name snap }, db)

/-- `DataBase.connect(name_, pin_)`: raises `ErrorDataBaseNotFound` when the
file cannot be opened; otherwise unpickles the snapshot (allocating a fresh
fields list) and compares its stored pin against the supplied one with
`__check_pin` (`self.__pin == pin_`), raising `ErrorPin` on mismatch. -/
def DataBase.connect (st : DBState) (name : String) (pin : Option Int) :
    DBState × Except DBError DataBase :=
  match fsRead st.files name with
  | none => (st, .error (.dataBaseNotFound name))
  | some snap =>
      let alloc := allocList st snap.fields
      let db : DataBase := ⟨snap.name, snap.pin, alloc.2⟩
      if snap.pin = pin then (alloc.1, .ok db)
      else (alloc.1, .error (.pinError pin))

/-- The linear scan of `get_field`: first field whose
`check_field_name(field_name_)` holds. -/
def findField : List DataField → String → Option DataField
  | [], _ => none
  | f :: fs, n => if f.check_field_name n then some f else findField fs n

/-- Replace the first field matching the name (this is how an in-place
mutation of the object returned by `get_field` reads back through the
fields list). -/
def replaceFirstField : List DataField → String → DataField →
    List DataField
  | [], _, _ => []
  | f :: fs, n, f2 =>
      if f.check_field_name n then f2 :: fs
      else f :: replaceFirstField fs n f2

/-- `list.remove` applied to the first name match found by the scan in
`remove_field`; `DataField` objects compare by identity in Python, so this
removes exactly the scanned element.  `none` when no field matches. -/
def removeFirstField : List DataField → String → Option (List DataField)
  | [], _ => none
  | f :: fs, n =>
      if f.check_field_name n then some fs
      else (removeFirstField fs n).map (fun l => f :: l)

/-- `DataBase.get_fileds` (sic): the live fields list. -/
def DataBase.get_fileds (st : DBState) (db : DataBase) : List DataField :=
  heapGet st.heap db.fieldsRef

/-- `DataBase.get_field`: linear scan for the first name match, raising
`ErrorFieldNotFound` when none matches. -/
def DataBase.get_field (st : DBState) (db : DataBase) (n : String) :
    Except DBError DataField :=
  match findField (DataBase.get_fileds st db) n with
  | some f => .ok f
  | none => .error (.fieldNotFound n db.name)

/-- `DataBase.get_fields_names`. -/
def DataBase.get_fields_names (st : DBState) (db : DataBase) :
    List String :=
  (DataBase.get_fileds st db).map DataField.get_name

/-- `DataBase.get`: `get_field` then `DataField.get`, both error kinds
propagate unchanged. -/
def DataBase.get (st : DBState) (db : DataBase) (n : String)
    (ident : Ident) : Except DBError PyObj :=
  match DataBase.get_field st db n with
  | .ok f => f.get ident
  | .error e => .error e

/-- `DataBase.add(field_name_, obj_, identifier_ = None)`: resolves the
field via `get_field` (propagating `ErrorFieldNotFound`) and calls
`DataField.add` on it; that object is an element of the store's fields
list, so the successful mutation updates the list entry in the heap. -/
def DataBase.add (st : DBState) (db : DataBase) (n : String) (obj : PyObj)
    (ident : Ident := .pynone) : DBState × Except DBError Unit :=
  match findField (DataBase.get_fileds st db) n with
  | none => (st, .error (.fieldNotFound n db.name))
  | some f =>
      match f.add ident obj with
      | .error e => (st, .error e)
      | .ok f2 =>
          ({ st with
              heap := heapSet st.heap db.fieldsRef
                (replaceFirstField (DataBase.get_fileds st db) n f2) },
            .ok ())

/-- `DataBase.add_field`: appends `DataField(field_name_)` — a fresh field
with the next `randint` draw as identity — to the store's fields list. -/
def DataBase.add_field (st : DBState) (db : DataBase) (n : String) :
    DBState :=
  let f := DataField.mkNew n (st.rng.headD 0)
  { st with
    heap := heapSet st.heap db.fieldsRef (DataBase.get_fileds st db ++ [f]),
    rng := st.rng.tail }

/-- `DataBase.pool`: pickles the whole store into the file at `__name`,
overwriting it. -/
def DataBase.pool (st : DBState) (db : DataBase) : DBState :=
  { st with
    files := fsWrite st.files db.name
      ⟨db.name, db.pin, DataBase.get_fileds st db⟩ }

/-- `DataBase.remove_field`: scans for the first name match and removes it
from the fields list, raising `ErrorFieldNotFound` when none matches. -/
def DataBase.remove_field (st : DBState) (db : DataBase) (n : String) :
    DBState × Except DBError Unit :=
  match removeFirstField (DataBase.get_fileds st db) n with
  | some fs => ({ st with heap := heapSet st.heap db.fieldsRef fs }, .ok ())
  | none => (st, .error (.fieldNotFound n db.name))

/-- The loop of `copy`: give every deep-copied field a fresh `randint`
identity via `new_id`, consuming the stream left to right. -/
def assignNewIds : List DataField → List Int → List DataField × List Int
  | [], rng => ([], rng)
  | f :: fs, rng =>
      let rest := assignNewIds fs rng.tail
      (f.new_id (rng.headD 0) :: rest.1, rest.2)

/-- `DataBase.copy(new_name_, new_pin_)`: persists the source
(`self.pool()`), deep-copies it and takes the copy's fields list (a fresh
list whose elements equal the source fields), draws a new identity for each
copied field, and materialises the copy through
`create(new_name_, new_pin_, coped_fields)`. -/
def DataBase.copy (st : DBState) (db : DataBase) (newName : String)
    (newPin : Option Int) : DBState × DataBase :=
  let st1 := DataBase.pool st db
  let copied := assignNewIds (DataBase.get_fileds st1 db) st1.rng
  let alloc := allocList { st1 with rng := copied.2 } copied.1
  DataBase.create alloc.1 newName newPin (some alloc.2)

/-! ### Lemmas about the dictionary, filesystem and heap primitives -/

theorem fsRead_fsWrite (files : List (String × DBFile)) (n : String)
    (f : DBFile) : fsRead (fsWrite files n f) n = some f := by
  induction files with
  | nil => simp [fsWrite, fsRead]
  | cons p rest ih =>
    by_cases h : p.1 = n
    · simp [fsWrite, fsRead, h]
    · simp [fsWrite, fsRead, h, ih]

theorem heapGet_append_self (h : List (List DataField))
    (fs : List DataField) : heapGet (h ++ [fs]) h.length = fs := by
  induction h with
  | nil => rfl
  | cons x rest ih => exact ih

theorem heapGet_append_lt (h : List (List DataField)) (fs : List DataField)
    (r : Nat) (hr : r < h.length) : heapGet (h ++ [fs]) r = heapGet h r := by
  induction h generalizing r with
  | nil => exact absurd hr (Nat.not_lt_zero r)
  | cons x rest ih =>
    cases r with
    | zero => rfl
    | succ r =>
      simpa [heapGet, List.getD] using ih r (Nat.lt_of_succ_lt_succ hr)

theorem heapGet_heapSet_self (h : List (List DataField)) (r : Nat)
    (fs : List DataField) (hr : r < h.length) :
    heapGet (heapSet h r fs) r = fs := by
  induction h generalizing r with
  | nil => exact absurd hr (Nat.not_lt_zero r)
  | cons x rest ih =>
    cases r with
    | zero => rfl
    | succ r =>
      simpa [heapGet, heapSet, List.getD] using
        ih r (Nat.lt_of_succ_lt_succ hr)

theorem heapGet_heapSet_ne (h : List (List DataField)) (r r2 : Nat)
    (fs : List DataField) (hne : r ≠ r2) :
    heapGet (heapSet h r fs) r2 = heapGet h r2 := by
  induction h generalizing r r2 with
  | nil => rfl
  | cons x rest ih =>
    cases r with
    | zero =>
      cases r2 with
      | zero => exact absurd rfl hne
      | succ r2 => rfl
    | succ r =>
      cases r2 with
      | zero => rfl
      | succ r2 =>
        simpa [heapGet, heapSet, List.getD] using
          ih r r2 (fun hrr => hne (congrArg Nat.succ hrr))

theorem length_heapSet (h : List (List DataField)) (r : Nat)
    (fs : List DataField) : (heapSet h r fs).length = h.length := by
  simp [heapSet]

theorem dictGet_dictSet_self (d : List (Ident × PyObj)) (k : Ident)
    (v : PyObj) : dictGet (dictSet d k v) k = some v := by
  induction d with
  | nil => simp [dictSet, dictGet]
  | cons p rest ih =>
    by_cases h : p.1 = k
    · simp [dictSet, dictGet, h]
    · simp [dictSet, dictGet, h, ih]

theorem dictGet_dictSet_ne (d : List (Ident × PyObj)) (k k2 : Ident)
    (v : PyObj) (hne : k ≠ k2) :
    dictGet (dictSet d k v) k2 = dictGet d k2 := by
  induction d with
  | nil => simp [dictSet, dictGet, hne]
  | cons p rest ih =>
    by_cases h : p.1 = k
    · subst h
      simp [dictSet, dictGet, hne]
    · have hne2 : ¬(k2 = k) := fun he => hne he.symm
      by_cases h2 : p.1 = k2
      · simp [dictSet, dictGet, h, h2, hne2]
      · simp [dictSet, dictGet, h, h2, ih]

theorem length_dictSet_of_mem (d : List (Ident × PyObj)) (k : Ident)
    (v : PyObj) (h : (dictGet d k).isSome) :
    (dictSet d k v).length = d.length := by
  induction d with
  | nil => simp [dictGet] at h
  | cons p rest ih =>
    by_cases hk : p.1 = k
    · simp [dictSet, hk]
    · simp only [dictGet, hk, if_false] at h
      simp [dictSet, hk, ih h]

theorem dictDel_of_get_none (d : List (Ident × PyObj)) (k : Ident)
    (h : dictGet d k = none) : dictDel d k = none := by
  induction d with
  | nil => rfl
  | cons p rest ih =>
    by_cases hk : p.1 = k
    · simp [dictGet, hk] at h
    · simp only [dictGet, hk, if_false] at h
      simp [dictDel, hk, ih h]

theorem dictGet_dictDel_ne (d d2 : List (Ident × PyObj)) (k k2 : Ident)
    (h : dictDel d k = some d2) (hne : k2 ≠ k) :
    dictGet d2 k2 = dictGet d k2 := by
  induction d generalizing d2 with
  | nil => simp [dictDel] at h
  | cons p rest ih =>
    by_cases hk : p.1 = k
    · simp only [dictDel, hk, if_true, Option.some.injEq] at h
      subst h
      have hp : p.1 ≠ k2 := fun he => hne (he.symm.trans hk)
      simp [dictGet, hp]
    · simp only [dictDel, hk, if_false, Option.map_eq_some'] at h
      obtain ⟨d3, hd3, hcons⟩ := h
      subst hcons
      by_cases h2 : p.1 = k2
      · simp [dictGet, h2]
      · simp [dictGet, h2, ih d3 hd3]

theorem dictGet_eq_none_of_not_mem (d : List (Ident × PyObj)) (k : Ident)
    (h : k ∉ d.map Prod.fst) : dictGet d k = none := by
  induction d with
  | nil => rfl
  | cons p rest ih =>
    simp only [List.map_cons, List.mem_cons, not_or] at h
    have hp : p.1 ≠ k := fun he => h.1 he.symm
    simp [dictGet, hp, ih h.2]

theorem dictGet_dictDel_self (d d2 : List (Ident × PyObj)) (k : Ident)
    (hnd : (d.map Prod.fst).Nodup) (h : dictDel d k = some d2) :
    dictGet d2 k = none := by
  induction d generalizing d2 with
  | nil => simp [dictDel] at h
  | cons p rest ih =>
    simp only [List.map_cons, List.nodup_cons] at hnd
    by_cases hk : p.1 = k
    · simp only [dictDel, hk, if_true, Option.some.injEq] at h
      subst h
      exact dictGet_eq_none_of_not_mem _ k (hk ▸ hnd.1)
    · simp only [dictDel, hk, if_false, Option.map_eq_some'] at h
      obtain ⟨d3, hd3, hcons⟩ := h
      subst hcons
      simp [dictGet, hk, ih d3 hnd.2 hd3]

/-! ### Lemmas about the field-list scans and the copy loop -/

theorem findField_append_of_none (fs gs : List DataField) (n : String)
    (h : findField fs n = none) :
    findField (fs ++ gs) n = findField gs n := by
  induction fs with
  | nil => rfl
  | cons f rest ih =>
    by_cases hf : f.check_field_name n
    · simp [findField, hf] at h
    · simp only [findField, hf, if_false, Bool.false_eq_true] at h
      simp [List.cons_append, findField, hf, ih h]

theorem removeFirstField_append_cons (fs rest : List DataField)
    (n : String) (f1 : DataField) (h : findField fs n = none)
    (hf : f1.check_field_name n = true) :
    removeFirstField (fs ++ f1 :: rest) n = some (fs ++ rest) := by
  induction fs with
  | nil => simp [removeFirstField, hf]
  | cons f fs2 ih =>
    by_cases hff : f.check_field_name n
    · simp [findField, hff] at h
    · simp only [findField, hff, if_false, Bool.false_eq_true] at h
      simp [removeFirstField, hff, ih h]

theorem findField_replaceFirstField (fs : List DataField) (n : String)
    (f0 f2 : DataField) (h : findField fs n = some f0)
    (hf2 : f2.check_field_name n = true) :
    findField (replaceFirstField fs n f2) n = some f2 := by
  induction fs with
  | nil => simp [findField] at h
  | cons f rest ih =>
    by_cases hff : f.check_field_name n
    · simp [replaceFirstField, findField, hff, hf2]
    · simp only [findField, hff, if_false, Bool.false_eq_true] at h
      simp [replaceFirstField, findField, hff, ih h]

theorem assignNewIds_length (fs : List DataField) (rng : List Int) :
    (assignNewIds fs rng).1.length = fs.length := by
  induction fs generalizing rng with
  | nil => rfl
  | cons f rest ih => simp [assignNewIds, ih]

theorem assignNewIds_map_filed_name (fs : List DataField)
    (rng : List Int) :
    (assignNewIds fs rng).1.map DataField.filed_name
      = fs.map DataField.filed_name := by
  induction fs generalizing rng with
  | nil => rfl
  | cons f rest ih => simp [assignNewIds, DataField.new_id, ih]

theorem assignNewIds_map_filed (fs : List DataField) (rng : List Int) :
    (assignNewIds fs rng).1.map DataField.filed = fs.map DataField.filed := by
  induction fs generalizing rng with
  | nil => rfl
  | cons f rest ih => simp [assignNewIds, DataField.new_id, ih]

/-- A throwaway field used as the `getD` default in index-wise statements. -/
def dfltField : DataField := ⟨[], "", 0⟩

theorem headD_eq_getD_zero (rng : List Int) : rng.headD 0 = rng.getD 0 0 := by
  cases rng <;> rfl

theorem tail_getD (rng : List Int) (i : Nat) :
    rng.tail.getD i 0 = rng.getD (i + 1) 0 := by
  cases rng <;> rfl

theorem assignNewIds_id (fs : List DataField) (rng : List Int) (i : Nat)
    (hi : i < fs.length) :
    ((assignNewIds fs rng).1.getD i dfltField).id = rng.getD i 0 := by
  induction fs generalizing rng i with
  | nil => exact absurd hi (Nat.not_lt_zero i)
  | cons f rest ih =>
    cases i with
    | zero =>
      simp only [assignNewIds, List.getD_cons_zero, DataField.new_id]
      exact headD_eq_getD_zero rng
    | succ i =>
      have := ih rng.tail i (Nat.lt_of_succ_lt_succ hi)
      simp only [assignNewIds, List.getD_cons_succ]
      rw [this, tail_getD]

/-! ### Frame lemmas for whole-store operations -/

theorem add_files_eq (st : DBState) (db : DataBase) (n : String)
    (obj : PyObj) (ident : Ident) :
    (DataBase.add st db n obj ident).1.files = st.files := by
  unfold DataBase.add
  cases findField (DataBase.get_fileds st db) n with
  | none => rfl
  | some f =>
    unfold DataField.add
    by_cases h : obj.isDataBase <;> simp [h]

theorem add_get_fileds_other (st : DBState) (dbM dbO : DataBase)
    (h : dbM.fieldsRef ≠ dbO.fieldsRef) (n : String) (obj : PyObj)
    (ident : Ident) :
    DataBase.get_fileds (DataBase.add st dbM n obj ident).1 dbO
      = DataBase.get_fileds st dbO := by
  unfold DataBase.add
  cases findField (DataBase.get_fileds st dbM) n with
  | none => rfl
  | some f =>
    unfold DataField.add
    by_cases hobj : obj.isDataBase
    · simp [hobj]
    · simp only [hobj, Bool.false_eq_true, if_false]
      exact heapGet_heapSet_ne st.heap dbM.fieldsRef dbO.fieldsRef _ h

theorem mem_dictSet (d : List (Ident × PyObj)) (k : Ident) (v : PyObj)
    (p : Ident × PyObj) (hp : p ∈ dictSet d k v) : p.2 = v ∨ p ∈ d := by
  induction d with
  | nil =>
    simp only [dictSet, List.mem_singleton] at hp
    left
    rw [hp]
  | cons q rest ih =>
    by_cases hq : q.1 = k
    · simp only [dictSet, hq, if_true, List.mem_cons] at hp
      rcases hp with h | h
      · left; rw [h]
      · right; exact List.mem_cons_of_mem q h
    · simp only [dictSet, hq, if_false, List.mem_cons] at hp
      rcases hp with h | h
      · right; rw [h]; exact List.mem_cons_self q rest
      · rcases ih h with h2 | h2
        · left; exact h2
        · right; exact List.mem_cons_of_mem q h2

/-! ### Claim theorems -/

/-- C7: for every field, every identifier and every valid (non-Store)
value, `add(identifier, value)` followed by `get(identifier)` on the same
field returns exactly the stored value unchanged. -/
theorem add_then_get_returns_value (f : DataField) (ident : Ident)
    (v : PyObj) (hv : v.isDataBase = false) :
    ∃ f2, DataField.add f ident v = .ok f2
      ∧ DataField.get f2 ident = .ok v := by
  refine ⟨{ f with filed := dictSet f.filed ident v }, ?_, ?_⟩
  · simp [DataField.add, hv]
  · simp [DataField.get, dictGet_dictSet_self]

theorem add_then_get_returns_value_witness :
    ∃ f2, DataField.add ⟨[], "users", 0⟩ (.int 1) (.obj "alice") = .ok f2
      ∧ DataField.get f2 (.int 1) = .ok (.obj "alice") :=
  add_then_get_returns_value ⟨[], "users", 0⟩ (.int 1) (.obj "alice") rfl

/-- C8: on a field whose entry map has no duplicate keys (every Python
`dict` satisfies this), `remove(identifier)` followed by `get(identifier)`
fails with `ErrorIdentifierNotFound`, and `remove` of an absent identifier
itself fails with `ErrorIdentifierNotFound` (leaving the field unchanged,
as the error is raised before any mutation). -/
theorem remove_then_get_fails (f : DataField) (ident : Ident)
    (hnd : (f.filed.map Prod.fst).Nodup) :
    (∀ f2, DataField.remove f ident = .ok f2 →
        DataField.get f2 ident = .error (.identifierNotFound ident))
    ∧ (dictGet f.filed ident = none →
        DataField.remove f ident = .error (.identifierNotFound ident)) := by
  constructor
  · intro f2 h2
    cases hd : dictDel f.filed ident with
    | none => simp [DataField.remove, hd] at h2
    | some d =>
      simp only [DataField.remove, hd, Except.ok.injEq] at h2
      subst h2
      simp [DataField.get, dictGet_dictDel_self f.filed d ident hnd hd]
  · intro h
    simp [DataField.remove, dictDel_of_get_none f.filed ident h]

theorem remove_then_get_fails_witness :
    (∀ f2, DataField.remove ⟨[(.int 1, .obj "a")], "users", 0⟩ (.int 1)
          = .ok f2 →
        DataField.get f2 (.int 1) = .error (.identifierNotFound (.int 1)))
    ∧ (dictGet [(Ident.int 1, PyObj.obj "a")] (.int 1) = none →
        DataField.remove ⟨[(.int 1, .obj "a")], "users", 0⟩ (.int 1)
          = .error (.identifierNotFound (.int 1))) :=
  remove_then_get_fails ⟨[(.int 1, .obj "a")], "users", 0⟩ (.int 1)
    (by decide)

/-- C9: the string key `"1"` and the integer key `1` are distinct: storing
a value under each yields two independent entries — `get` resolves each key
exactly, adding one does not disturb the other, and removing one leaves the
other retrievable. -/
theorem int_str_keys_independent (f : DataField) (v1 v2 : PyObj)
    (h1 : v1.isDataBase = false) (h2 : v2.isDataBase = false) :
    ∃ f1 f2, DataField.add f (.str "1") v1 = .ok f1
      ∧ DataField.add f1 (.int 1) v2 = .ok f2
      ∧ DataField.get f2 (.str "1") = .ok v1
      ∧ DataField.get f2 (.int 1) = .ok v2
      ∧ (∀ f3, DataField.remove f2 (.int 1) = .ok f3 →
          DataField.get f3 (.str "1") = .ok v1)
      ∧ (∀ f3, DataField.remove f2 (.str "1") = .ok f3 →
          DataField.get f3 (.int 1) = .ok v2) := by
  have hne : Ident.int 1 ≠ Ident.str "1" := by decide
  refine ⟨{ f with filed := dictSet f.filed (.str "1") v1 },
    { f with filed :=
        dictSet (dictSet f.filed (.str "1") v1) (.int 1) v2 },
    ?_, ?_, ?_, ?_, ?_, ?_⟩
  · simp [DataField.add, h1]
  · simp [DataField.add, h2]
  · simp [DataField.get, dictGet_dictSet_ne _ _ _ _ hne,
      dictGet_dictSet_self]
  · simp [DataField.get, dictGet_dictSet_self]
  · intro f3 h3
    cases hd : dictDel (dictSet (dictSet f.filed (.str "1") v1)
        (.int 1) v2) (.int 1) with
    | none => simp [DataField.remove, hd] at h3
    | some d =>
      simp only [DataField.remove, hd, Except.ok.injEq] at h3
      subst h3
      simp [DataField.get,
        dictGet_dictDel_ne _ d _ _ hd (Ne.symm hne),
        dictGet_dictSet_ne _ _ _ _ hne, dictGet_dictSet_self]
  · intro f3 h3
    cases hd : dictDel (dictSet (dictSet f.filed (.str "1") v1)
        (.int 1) v2) (.str "1") with
    | none => simp [DataField.remove, hd] at h3
    | some d =>
      simp only [DataField.remove, hd, Except.ok.injEq] at h3
      subst h3
      simp [DataField.get, dictGet_dictDel_ne _ d _ _ hd hne,
        dictGet_dictSet_self]

theorem int_str_keys_independent_witness :
    ∃ f1 f2,
      DataField.add ⟨[], "users", 0⟩ (.str "1") (.obj "a") = .ok f1
      ∧ DataField.add f1 (.int 1) (.obj "b") = .ok f2
      ∧ DataField.get f2 (.str "1") = .ok (.obj "a")
      ∧ DataField.get f2 (.int 1) = .ok (.obj "b")
      ∧ (∀ f3, DataField.remove f2 (.int 1) = .ok f3 →
          DataField.get f3 (.str "1") = .ok (.obj "a"))
      ∧ (∀ f3, DataField.remove f2 (.str "1") = .ok f3 →
          DataField.get f3 (.int 1) = .ok (.obj "b")) :=
  int_str_keys_independent ⟨[], "users", 0⟩ (.obj "a") (.obj "b") rfl rfl

/-- C5: storing a `DataBase` instance as a field entry is rejected: the
field-level `DataField.add` and the store-level `DataBase.add` path that
delegates to it both fail with `ErrorObjectIsDataBase`, leaving the field
(and the whole state) unchanged; consequently a field whose entries contain
no `DataBase` value can never acquire one through `add`. -/
theorem store_values_rejected (f : DataField) (ident : Ident) (v : PyObj)
    (hv : v.isDataBase = true) (st : DBState) (db : DataBase)
    (fname : String) (f0 : DataField)
    (hfind : findField (DataBase.get_fileds st db) fname = some f0) :
    DataField.add f ident v = .error (.objectIsDataBase v)
    ∧ DataBase.add st db fname v ident = (st, .error (.objectIsDataBase v))
    ∧ (∀ (i : Ident) (w : PyObj) (f2 : DataField),
        DataField.add f i w = .ok f2 →
        (∀ p ∈ f.filed, (Prod.snd p).isDataBase = false) →
        ∀ p ∈ f2.filed, (Prod.snd p).isDataBase = false) := by
  refine ⟨?_, ?_, ?_⟩
  · simp [DataField.add, hv]
  · simp [DataBase.add, hfind, DataField.add, hv]
  · intro i w f2 hadd hinv p hp
    by_cases hw : w.isDataBase
    · simp [DataField.add, hw] at hadd
    · have hw2 : w.isDataBase = false := by
        revert hw
        cases w.isDataBase <;> simp
      simp only [DataField.add, hw2, Bool.false_eq_true, if_false,
        Except.ok.injEq] at hadd
      subst hadd
      rcases mem_dictSet f.filed i w p hp with hval | hmem
      · rw [hval]; exact hw2
      · exact hinv p hmem

theorem store_values_rejected_witness :
    DataField.add ⟨[], "extra", 7⟩ (.int 1) (.dataBase "x.dbl" none 0)
        = .error (.objectIsDataBase (.dataBase "x.dbl" none 0))
    ∧ DataBase.add ⟨[[⟨[], "users", 1⟩]], [], []⟩ ⟨"d.dbl", none, 0⟩
          "users" (.dataBase "x.dbl" none 0) (.int 1)
        = (⟨[[⟨[], "users", 1⟩]], [], []⟩,
            .error (.objectIsDataBase (.dataBase "x.dbl" none 0)))
    ∧ (∀ (i : Ident) (w : PyObj) (f2 : DataField),
        DataField.add ⟨[], "extra", 7⟩ i w = .ok f2 →
        (∀ p ∈ (⟨[], "extra", 7⟩ : DataField).filed,
            (Prod.snd p).isDataBase = false) →
        ∀ p ∈ f2.filed, (Prod.snd p).isDataBase = false) :=
  store_values_rejected ⟨[], "extra", 7⟩ (.int 1)
    (.dataBase "x.dbl" none 0) rfl ⟨[[⟨[], "users", 1⟩]], [], []⟩
    ⟨"d.dbl", none, 0⟩ "users" ⟨[], "users", 1⟩ (by decide)

/-- C2: for every path holding a persisted snapshot, `connect` fails with
`ErrorPin` exactly when the supplied pin is not equal to the stored pin
(`Option Int` equality: `none` matches only `none`, covering the
absent-vs-set cases in both directions), and succeeds exactly when they are
equal. -/
theorem connect_pin_gate (st : DBState) (name : String) (pin : Option Int)
    (snap : DBFile) (h : fsRead st.files name = some snap) :
    ((DataBase.connect st name pin).2 = .error (.pinError pin)
        ↔ snap.pin ≠ pin)
    ∧ ((∃ db2, (DataBase.connect st name pin).2 = .ok db2)
        ↔ snap.pin = pin) := by
  by_cases hp : snap.pin = pin
  · simp [DataBase.connect, h, hp]
  · simp [DataBase.connect, h, hp]

theorem connect_pin_gate_witness :
    ((DataBase.connect ⟨[[]], [("a.dbl", ⟨"a.dbl", some 1, []⟩)], []⟩
          "a.dbl" (some 2)).2 = .error (.pinError (some 2))
        ↔ (some 1 : Option Int) ≠ some 2)
    ∧ ((∃ db2, (DataBase.connect ⟨[[]], [("a.dbl", ⟨"a.dbl", some 1, []⟩)], []⟩
          "a.dbl" (some 2)).2 = .ok db2)
        ↔ (some 1 : Option Int) = some 2) :=
  connect_pin_gate ⟨[[]], [("a.dbl", ⟨"a.dbl", some 1, []⟩)], []⟩
    "a.dbl" (some 2) ⟨"a.dbl", some 1, []⟩ (by decide)

/-- C1: `create(path, pin, initial_fields)` immediately followed by
`connect(path, pin)` with the same pin succeeds and yields a store with the
same name, the same pin, and a fields list equal to the created store's —
hence the same field names, the same entries in each field, the same
identities, and the same order throughout. -/
theorem create_connect_roundtrip (st : DBState) (name : String)
    (pin : Option Int) (fieldsArg : Option Nat) :
    ∃ db2,
      (DataBase.connect (DataBase.create st name pin fieldsArg).1
          name pin).2 = .ok db2
      ∧ db2.name = (DataBase.create st name pin fieldsArg).2.name
      ∧ db2.pin = (DataBase.create st name pin fieldsArg).2.pin
      ∧ DataBase.get_fileds
            (DataBase.connect (DataBase.create st name pin fieldsArg).1
              name pin).1 db2
          = DataBase.get_fileds (DataBase.create st name pin fieldsArg).1
              (DataBase.create st name pin fieldsArg).2 := by
  have hread : fsRead (fsWrite st.files name
        ⟨name, pin, heapGet st.heap (fieldsArg.getD defaultFieldsRef)⟩) name
      = some ⟨name, pin, heapGet st.heap (fieldsArg.getD defaultFieldsRef)⟩ :=
    fsRead_fsWrite _ _ _
  refine ⟨⟨name, pin, st.heap.length⟩, ?_, rfl, rfl, ?_⟩
  · simp [DataBase.connect, DataBase.create, hread, allocList]
  · simp [DataBase.connect, DataBase.create, hread, allocList,
      DataBase.get_fileds, heapGet_append_self]

theorem findField_some_check (fs : List DataField) (n : String)
    (f0 : DataField) (h : findField fs n = some f0) :
    f0.check_field_name n = true := by
  induction fs with
  | nil => simp [findField] at h
  | cons f rest ih =>
    by_cases hf : f.check_field_name n
    · simp only [findField, hf, if_true, Option.some.injEq] at h
      subst h
      exact hf
    · simp only [findField, hf, if_false, Bool.false_eq_true] at h
      exact ih h

/-- C10: on a store containing a field named `fname`, the store-level
`add(fname, value)` with the identifier omitted inserts the value under the
single key `None`; `get(fname, None)` then returns it, and a second
omitted-identifier `add` overwrites that entry instead of creating a new
one (the field's entry count does not grow). -/
theorem add_default_identifier_overwrites (st : DBState) (db : DataBase)
    (fname : String) (v1 v2 : PyObj)
    (hwf : db.fieldsRef < st.heap.length)
    (h1 : v1.isDataBase = false) (h2 : v2.isDataBase = false)
    (f0 : DataField)
    (hfind : findField (DataBase.get_fileds st db) fname = some f0) :
    (DataBase.add st db fname v1 .pynone).2 = .ok ()
    ∧ (DataBase.add (DataBase.add st db fname v1 .pynone).1
        db fname v2 .pynone).2 = .ok ()
    ∧ DataBase.get (DataBase.add st db fname v1 .pynone).1
        db fname .pynone = .ok v1
    ∧ DataBase.get (DataBase.add (DataBase.add st db fname v1 .pynone).1
        db fname v2 .pynone).1 db fname .pynone = .ok v2
    ∧ ∃ fA fB,
        DataBase.get_field (DataBase.add st db fname v1 .pynone).1
            db fname = .ok fA
        ∧ DataBase.get_field
            (DataBase.add (DataBase.add st db fname v1 .pynone).1
              db fname v2 .pynone).1 db fname = .ok fB
        ∧ DataField.lenght fB = DataField.lenght fA := by
  have hname := findField_some_check _ _ _ hfind
  have ha1 : DataBase.add st db fname v1 .pynone
      = (⟨heapSet st.heap db.fieldsRef
            (replaceFirstField (DataBase.get_fileds st db) fname
              ⟨dictSet f0.filed .pynone v1, f0.filed_name, f0.id⟩),
          st.files, st.rng⟩, .ok ()) := by
    simp [DataBase.add, hfind, DataField.add, h1]
  rw [ha1]
  have hg1 : DataBase.get_fileds
      ⟨heapSet st.heap db.fieldsRef
          (replaceFirstField (DataBase.get_fileds st db) fname
            ⟨dictSet f0.filed .pynone v1, f0.filed_name, f0.id⟩),
        st.files, st.rng⟩ db
      = replaceFirstField (DataBase.get_fileds st db) fname
          ⟨dictSet f0.filed .pynone v1, f0.filed_name, f0.id⟩ :=
    heapGet_heapSet_self st.heap db.fieldsRef _ hwf
  have hfindA : findField (replaceFirstField (DataBase.get_fileds st db)
        fname ⟨dictSet f0.filed .pynone v1, f0.filed_name, f0.id⟩) fname
      = some ⟨dictSet f0.filed .pynone v1, f0.filed_name, f0.id⟩ :=
    findField_replaceFirstField _ fname f0 _ hfind hname
  have ha2 : DataBase.add
      ⟨heapSet st.heap db.fieldsRef
          (replaceFirstField (DataBase.get_fileds st db) fname
            ⟨dictSet f0.filed .pynone v1, f0.filed_name, f0.id⟩),
        st.files, st.rng⟩ db fname v2 .pynone
      = (⟨heapSet (heapSet st.heap db.fieldsRef
              (replaceFirstField (DataBase.get_fileds st db) fname
                ⟨dictSet f0.filed .pynone v1, f0.filed_name, f0.id⟩))
            db.fieldsRef
            (replaceFirstField
              (replaceFirstField (DataBase.get_fileds st db) fname
                ⟨dictSet f0.filed .pynone v1, f0.filed_name, f0.id⟩)
              fname
              ⟨dictSet (dictSet f0.filed .pynone v1) .pynone v2,
                f0.filed_name, f0.id⟩),
          st.files, st.rng⟩, .ok ()) := by
    simp [DataBase.add, hg1, hfindA, DataField.add, h2]
  rw [ha2]
  have hwf2 : db.fieldsRef < (heapSet st.heap db.fieldsRef
      (replaceFirstField (DataBase.get_fileds st db) fname
        ⟨dictSet f0.filed .pynone v1, f0.filed_name, f0.id⟩)).length := by
    simpa [heapSet] using hwf
  have hg2 : DataBase.get_fileds
      ⟨heapSet (heapSet st.heap db.fieldsRef
            (replaceFirstField (DataBase.get_fileds st db) fname
              ⟨dictSet f0.filed .pynone v1, f0.filed_name, f0.id⟩))
          db.fieldsRef
          (replaceFirstField
            (replaceFirstField (DataBase.get_fileds st db) fname
              ⟨dictSet f0.filed .pynone v1, f0.filed_name, f0.id⟩)
            fname
            ⟨dictSet (dictSet f0.filed .pynone v1) .pynone v2,
              f0.filed_name, f0.id⟩),
        st.files, st.rng⟩ db
      = replaceFirstField
          (replaceFirstField (DataBase.get_fileds st db) fname
            ⟨dictSet f0.filed .pynone v1, f0.filed_name, f0.id⟩)
          fname
          ⟨dictSet (dictSet f0.filed .pynone v1) .pynone v2,
            f0.filed_name, f0.id⟩ :=
    heapGet_heapSet_self _ db.fieldsRef _ hwf2
  have hfindB : findField
      (replaceFirstField
        (replaceFirstField (DataBase.get_fileds st db) fname
          ⟨dictSet f0.filed .pynone v1, f0.filed_name, f0.id⟩)
        fname
        ⟨dictSet (dictSet f0.filed .pynone v1) .pynone v2,
          f0.filed_name, f0.id⟩) fname
      = some ⟨dictSet (dictSet f0.filed .pynone v1) .pynone v2,
          f0.filed_name, f0.id⟩ :=
    findField_replaceFirstField _ fname _ _ hfindA hname
  refine ⟨rfl, rfl, ?_, ?_, ?_⟩
  · simp [DataBase.get, DataBase.get_field, hg1, hfindA, DataField.get,
      dictGet_dictSet_self]
  · simp [DataBase.get, DataBase.get_field, hg2, hfindB, DataField.get,
      dictGet_dictSet_self]
  · refine ⟨⟨dictSet f0.filed .pynone v1, f0.filed_name, f0.id⟩,
      ⟨dictSet (dictSet f0.filed .pynone v1) .pynone v2,
        f0.filed_name, f0.id⟩, ?_, ?_, ?_⟩
    · simp [DataBase.get_field, hg1, hfindA]
    · simp [DataBase.get_field, hg2, hfindB]
    · simp only [DataField.lenght]
      exact length_dictSet_of_mem _ _ v2 (by rw [dictGet_dictSet_self]; rfl)

theorem add_default_identifier_overwrites_witness :
    (DataBase.add ⟨[[⟨[], "users", 3⟩]], [], []⟩ ⟨"d.dbl", none, 0⟩
        "users" (.obj "v1") .pynone).2 = .ok ()
    ∧ (DataBase.add (DataBase.add ⟨[[⟨[], "users", 3⟩]], [], []⟩
        ⟨"d.dbl", none, 0⟩ "users" (.obj "v1") .pynone).1
        ⟨"d.dbl", none, 0⟩ "users" (.obj "v2") .pynone).2 = .ok ()
    ∧ DataBase.get (DataBase.add ⟨[[⟨[], "users", 3⟩]], [], []⟩
        ⟨"d.dbl", none, 0⟩ "users" (.obj "v1") .pynone).1
        ⟨"d.dbl", none, 0⟩ "users" .pynone = .ok (.obj "v1")
    ∧ DataBase.get (DataBase.add (DataBase.add ⟨[[⟨[], "users", 3⟩]], [], []⟩
        ⟨"d.dbl", none, 0⟩ "users" (.obj "v1") .pynone).1
        ⟨"d.dbl", none, 0⟩ "users" (.obj "v2") .pynone).1
        ⟨"d.dbl", none, 0⟩ "users" .pynone = .ok (.obj "v2")
    ∧ ∃ fA fB,
        DataBase.get_field (DataBase.add ⟨[[⟨[], "users", 3⟩]], [], []⟩
            ⟨"d.dbl", none, 0⟩ "users" (.obj "v1") .pynone).1
            ⟨"d.dbl", none, 0⟩ "users" = .ok fA
        ∧ DataBase.get_field
            (DataBase.add (DataBase.add ⟨[[⟨[], "users", 3⟩]], [], []⟩
              ⟨"d.dbl", none, 0⟩ "users" (.obj "v1") .pynone).1
              ⟨"d.dbl", none, 0⟩ "users" (.obj "v2") .pynone).1
            ⟨"d.dbl", none, 0⟩ "users" = .ok fB
        ∧ DataField.lenght fB = DataField.lenght fA :=
  add_default_identifier_overwrites ⟨[[⟨[], "users", 3⟩]], [], []⟩
    ⟨"d.dbl", none, 0⟩ "users" (.obj "v1") (.obj "v2") (by decide) rfl rfl
    ⟨[], "users", 3⟩ (by decide)

theorem add_field_get_fileds (st : DBState) (db : DataBase) (n : String)
    (hwf : db.fieldsRef < st.heap.length) :
    DataBase.get_fileds (DataBase.add_field st db n) db
      = DataBase.get_fileds st db ++ [DataField.mkNew n (st.rng.headD 0)] :=
  heapGet_heapSet_self st.heap db.fieldsRef _ hwf

theorem add_field_heap_length (st : DBState) (db : DataBase) (n : String) :
    (DataBase.add_field st db n).heap.length = st.heap.length := by
  simp [DataBase.add_field, heapSet]

theorem add_field_rng (st : DBState) (db : DataBase) (n : String) :
    (DataBase.add_field st db n).rng = st.rng.tail := rfl

/-- C4: on a store with no pre-existing field named `"users"`, calling
`add_field("users")` twice makes `get_field("users")` return the first
field added (first-match resolution by linear scan), and
`remove_field("users")` removes only that first match, leaving the second
`"users"` field in the store. -/
theorem add_field_twice_first_match (st : DBState) (db : DataBase)
    (hwf : db.fieldsRef < st.heap.length)
    (hnone : findField (DataBase.get_fileds st db) "users" = none) :
    DataBase.get_field
        (DataBase.add_field (DataBase.add_field st db "users") db "users")
        db "users"
      = .ok (DataField.mkNew "users" (st.rng.headD 0))
    ∧ (DataBase.remove_field
        (DataBase.add_field (DataBase.add_field st db "users") db "users")
        db "users").2 = .ok ()
    ∧ DataBase.get_fileds
        (DataBase.remove_field
          (DataBase.add_field (DataBase.add_field st db "users") db "users")
          db "users").1 db
      = DataBase.get_fileds st db
          ++ [DataField.mkNew "users" (st.rng.tail.headD 0)] := by
  have hwf1 : db.fieldsRef
      < (DataBase.add_field st db "users").heap.length := by
    rw [add_field_heap_length]
    exact hwf
  have hwf2 : db.fieldsRef
      < (DataBase.add_field (DataBase.add_field st db "users")
          db "users").heap.length := by
    rw [add_field_heap_length, add_field_heap_length]
    exact hwf
  have hg2 : DataBase.get_fileds
        (DataBase.add_field (DataBase.add_field st db "users") db "users") db
      = (DataBase.get_fileds st db
          ++ [DataField.mkNew "users" (st.rng.headD 0)])
          ++ [DataField.mkNew "users" (st.rng.tail.headD 0)] := by
    rw [add_field_get_fileds _ db _ hwf1, add_field_get_fileds _ db _ hwf,
      add_field_rng]
  have hcheck : (DataField.mkNew "users"
      (st.rng.headD 0)).check_field_name "users" = true := by
    simp [DataField.mkNew, DataField.check_field_name]
  have hfind2 : findField (DataBase.get_fileds
        (DataBase.add_field (DataBase.add_field st db "users") db "users")
        db) "users"
      = some (DataField.mkNew "users" (st.rng.headD 0)) := by
    rw [hg2, List.append_assoc, findField_append_of_none _ _ _ hnone]
    simp only [List.singleton_append, findField]
    rw [hcheck]
    simp
  have hrem : removeFirstField (DataBase.get_fileds
        (DataBase.add_field (DataBase.add_field st db "users") db "users")
        db) "users"
      = some (DataBase.get_fileds st db
          ++ [DataField.mkNew "users" (st.rng.tail.headD 0)]) := by
    rw [hg2, List.append_assoc]
    exact removeFirstField_append_cons _ _ _ _ hnone hcheck
  refine ⟨?_, ?_, ?_⟩
  · simp [DataBase.get_field, hfind2]
  · simp [DataBase.remove_field, hrem]
  · simp only [DataBase.remove_field, hrem]
    exact heapGet_heapSet_self _ _ _ hwf2

theorem add_field_twice_first_match_witness :
    DataBase.get_field
        (DataBase.add_field (DataBase.add_field ⟨[[]], [], [10, 20]⟩
          ⟨"a.dbl", none, 0⟩ "users") ⟨"a.dbl", none, 0⟩ "users")
        ⟨"a.dbl", none, 0⟩ "users"
      = .ok (DataField.mkNew "users" 10)
    ∧ (DataBase.remove_field
        (DataBase.add_field (DataBase.add_field ⟨[[]], [], [10, 20]⟩
          ⟨"a.dbl", none, 0⟩ "users") ⟨"a.dbl", none, 0⟩ "users")
        ⟨"a.dbl", none, 0⟩ "users").2 = .ok ()
    ∧ DataBase.get_fileds
        (DataBase.remove_field
          (DataBase.add_field (DataBase.add_field ⟨[[]], [], [10, 20]⟩
            ⟨"a.dbl", none, 0⟩ "users") ⟨"a.dbl", none, 0⟩ "users")
          ⟨"a.dbl", none, 0⟩ "users").1 ⟨"a.dbl", none, 0⟩
      = [DataField.mkNew "users" 20] :=
  add_field_twice_first_match ⟨[[]], [], [10, 20]⟩ ⟨"a.dbl", none, 0⟩
    (by decide) rfl

/-- C6 (refuted by evaluation): `create`'s mutable default argument
`data_fileds_ = []` is evaluated once, so two stores created without an
explicit initial-fields argument share one mutable fields list.  Before the
mutation the second store's field names are `[]`; after `add_field("users")`
on the *first* store they are `["users"]` — the mutation is observable
through the other store. -/
theorem shared_default_fields_list :
    DataBase.get_fields_names
        (DataBase.create (DataBase.create (initState [] [7]) "a.dbl"
          none none).1 "b.dbl" none none).1
        (DataBase.create (DataBase.create (initState [] [7]) "a.dbl"
          none none).1 "b.dbl" none none).2
      = []
    ∧ DataBase.get_fields_names
        (DataBase.add_field
          (DataBase.create (DataBase.create (initState [] [7]) "a.dbl"
            none none).1 "b.dbl" none none).1
          (DataBase.create (initState [] [7]) "a.dbl" none none).2 "users")
        (DataBase.create (DataBase.create (initState [] [7]) "a.dbl"
          none none).1 "b.dbl" none none).2
      = ["users"] := by
  decide

/-- C3 counterexample: when the next `randint` draw happens to equal the
source field's identity (`new_id` performs no inequality check), the copied
field's identity equals the source field's identity, refuting "every copied
field's identity value differs from the corresponding source field's
identity". -/
theorem copy_identity_can_collide :
    (DataBase.get_fileds
        (DataBase.copy ⟨[[], [⟨[], "users", 5⟩]], [], [5]⟩
          ⟨"src.dbl", none, 1⟩ "copy.dbl" none).1
        (DataBase.copy ⟨[[], [⟨[], "users", 5⟩]], [], [5]⟩
          ⟨"src.dbl", none, 1⟩ "copy.dbl" none).2).map DataField.id
      = [5]
    ∧ (DataBase.get_fileds ⟨[[], [⟨[], "users", 5⟩]], [], [5]⟩
        ⟨"src.dbl", none, 1⟩).map DataField.id = [5] := by
  decide

/-- C3 (amended): `copy(new_path, new_pin)` returns a store whose fields
have the same names and the same entries as the source's, each copied
field's identity being freshly drawn from the random stream — so it differs
from the corresponding source identity whenever the drawn value differs
(nothing enforces inequality) — and the copy's fields list is a fresh
allocation: a store-level `add` on the copy leaves the source store's
in-memory fields and the whole filesystem (hence the source's persisted
file) unchanged. -/
theorem copy_fields_equal_and_independent (st : DBState) (db : DataBase)
    (newName : String) (newPin : Option Int)
    (hwf : db.fieldsRef < st.heap.length)
    (hids : ∀ i, i < (DataBase.get_fileds st db).length →
      st.rng.getD i 0 ≠ ((DataBase.get_fileds st db).getD i dfltField).id) :
    (DataBase.get_fileds (DataBase.copy st db newName newPin).1
        (DataBase.copy st db newName newPin).2).map DataField.filed_name
      = (DataBase.get_fileds st db).map DataField.filed_name
    ∧ (DataBase.get_fileds (DataBase.copy st db newName newPin).1
        (DataBase.copy st db newName newPin).2).map DataField.filed
      = (DataBase.get_fileds st db).map DataField.filed
    ∧ (∀ i, i < (DataBase.get_fileds st db).length →
        ((DataBase.get_fileds (DataBase.copy st db newName newPin).1
            (DataBase.copy st db newName newPin).2).getD i dfltField).id
          ≠ ((DataBase.get_fileds st db).getD i dfltField).id)
    ∧ (DataBase.copy st db newName newPin).2.fieldsRef ≠ db.fieldsRef
    ∧ (∀ (n : String) (obj : PyObj) (ident : Ident),
        DataBase.get_fileds
            (DataBase.add (DataBase.copy st db newName newPin).1
              (DataBase.copy st db newName newPin).2 n obj ident).1 db
          = DataBase.get_fileds st db
        ∧ (DataBase.add (DataBase.copy st db newName newPin).1
            (DataBase.copy st db newName newPin).2 n obj ident).1.files
          = (DataBase.copy st db newName newPin).1.files) := by
  have hcopyfields : DataBase.get_fileds (DataBase.copy st db newName newPin).1
        (DataBase.copy st db newName newPin).2
      = (assignNewIds (DataBase.get_fileds st db) st.rng).1 :=
    heapGet_append_self st.heap (assignNewIds (DataBase.get_fileds st db) st.rng).1
  have hne : (DataBase.copy st db newName newPin).2.fieldsRef ≠ db.fieldsRef :=
    ne_of_gt hwf
  refine ⟨?_, ?_, ?_, hne, ?_⟩
  · rw [hcopyfields]
    exact assignNewIds_map_filed_name _ _
  · rw [hcopyfields]
    exact assignNewIds_map_filed _ _
  · intro i hi
    rw [hcopyfields, assignNewIds_id _ _ i hi]
    exact hids i hi
  · intro n obj ident
    refine ⟨?_, ?_⟩
    · rw [add_get_fileds_other _ _ _ hne n obj ident]
      exact heapGet_append_lt st.heap _ db.fieldsRef hwf
    · exact add_files_eq _ _ n obj ident

theorem copy_fields_equal_and_independent_witness :
    (DataBase.get_fileds (DataBase.copy
        ⟨[[], [⟨[(.int 1, .obj "alice")], "users", 5⟩]], [], [9]⟩
        ⟨"src.dbl", none, 1⟩ "copy.dbl" none).1
      (DataBase.copy ⟨[[], [⟨[(.int 1, .obj "alice")], "users", 5⟩]], [], [9]⟩
        ⟨"src.dbl", none, 1⟩ "copy.dbl" none).2).map DataField.filed_name
      = (DataBase.get_fileds
          ⟨[[], [⟨[(.int 1, .obj "alice")], "users", 5⟩]], [], [9]⟩
          ⟨"src.dbl", none, 1⟩).map DataField.filed_name
    ∧ (DataBase.get_fileds (DataBase.copy
        ⟨[[], [⟨[(.int 1, .obj "alice")], "users", 5⟩]], [], [9]⟩
        ⟨"src.dbl", none, 1⟩ "copy.dbl" none).1
      (DataBase.copy ⟨[[], [⟨[(.int 1, .obj "alice")], "users", 5⟩]], [], [9]⟩
        ⟨"src.dbl", none, 1⟩ "copy.dbl" none).2).map DataField.filed
      = (DataBase.get_fileds
          ⟨[[], [⟨[(.int 1, .obj "alice")], "users", 5⟩]], [], [9]⟩
          ⟨"src.dbl", none, 1⟩).map DataField.filed
    ∧ (∀ i, i < (DataBase.get_fileds
          ⟨[[], [⟨[(.int 1, .obj "alice")], "users", 5⟩]], [], [9]⟩
          ⟨"src.dbl", none, 1⟩).length →
        ((DataBase.get_fileds (DataBase.copy
            ⟨[[], [⟨[(.int 1, .obj "alice")], "users", 5⟩]], [], [9]⟩
            ⟨"src.dbl", none, 1⟩ "copy.dbl" none).1
          (DataBase.copy
            ⟨[[], [⟨[(.int 1, .obj "alice")], "users", 5⟩]], [], [9]⟩
            ⟨"src.dbl", none, 1⟩ "copy.dbl" none).2).getD i dfltField).id
          ≠ ((DataBase.get_fileds
              ⟨[[], [⟨[(.int 1, .obj "alice")], "users", 5⟩]], [], [9]⟩
              ⟨"src.dbl", none, 1⟩).getD i dfltField).id)
    ∧ (DataBase.copy ⟨[[], [⟨[(.int 1, .obj "alice")], "users", 5⟩]], [], [9]⟩
        ⟨"src.dbl", none, 1⟩ "copy.dbl" none).2.fieldsRef ≠ 1
    ∧ (∀ (n : String) (obj : PyObj) (ident : Ident),
        DataBase.get_fileds
            (DataBase.add (DataBase.copy
              ⟨[[], [⟨[(.int 1, .obj "alice")], "users", 5⟩]], [], [9]⟩
              ⟨"src.dbl", none, 1⟩ "copy.dbl" none).1
              (DataBase.copy
                ⟨[[], [⟨[(.int 1, .obj "alice")], "users", 5⟩]], [], [9]⟩
                ⟨"src.dbl", none, 1⟩ "copy.dbl" none).2 n obj ident).1
            ⟨"src.dbl", none, 1⟩
          = DataBase.get_fileds
              ⟨[[], [⟨[(.int 1, .obj "alice")], "users", 5⟩]], [], [9]⟩
              ⟨"src.dbl", none, 1⟩
        ∧ (DataBase.add (DataBase.copy
            ⟨[[], [⟨[(.int 1, .obj "alice")], "users", 5⟩]], [], [9]⟩
            ⟨"src.dbl", none, 1⟩ "copy.dbl" none).1
            (DataBase.copy
              ⟨[[], [⟨[(.int 1, .obj "alice")], "users", 5⟩]], [], [9]⟩
              ⟨"src.dbl", none, 1⟩ "copy.dbl" none).2 n obj ident).1.files
          = (DataBase.copy
              ⟨[[], [⟨[(.int 1, .obj "alice")], "users", 5⟩]], [], [9]⟩
              ⟨"src.dbl", none, 1⟩ "copy.dbl" none).1.files) :=
  copy_fields_equal_and_independent
    ⟨[[], [⟨[(.int 1, .obj "alice")], "users", 5⟩]], [], [9]⟩
    ⟨"src.dbl", none, 1⟩ "copy.dbl" none (by decide) (by decide)

end DBLite
